import Mathlib

/-!
Shallow embedding of the hot-spot detection cache of the repository
(`server/statistics/hot_peer_cache.go`, with the façade in
`server/statistics/hot_cache.go`).  Machine integers are modelled as `Nat`
(the counters and rates, all `uint64` in the source) and as `Int` (the
signed `HotDegree` and `AntiCount` fields and time differences in seconds).
Rolling windows are owned through a heap of window identifiers so that the
pointer sharing of `RollingBytesRate` between a cached item and the
candidate built by `CheckRegionFlow` is represented faithfully.
-/

namespace PD

/-- FlowKind distinguishes write flow from read flow
(`WriteFlow` / `ReadFlow` in the source). -/
inductive FlowKind where
  | write
  | read
deriving DecidableEq

/-- One replica of a region on a store (`metapb.Peer`, only the fields the
statistics code reads). -/
structure Peer where
  id : Nat
  storeId : Nat
deriving DecidableEq

/-- The slice of `core.RegionInfo` consumed by the hot-peer cache: id,
epoch version, peer list, optional leader, and the four flow counters. -/
structure RegionInfo where
  id : Nat
  version : Nat
  peers : List Peer
  leader : Option Peer
  bytesWritten : Nat
  keysWritten : Nat
  bytesRead : Nat
  keysRead : Nat

/-- `region.GetLeader().GetStoreId()`: a nil leader yields store id 0,
following Go protobuf getter semantics on a nil message. -/
def leaderStoreId (region : RegionInfo) : Nat :=
  match region.leader with
  | some p => p.storeId
  | none => 0

/-- `region.GetStorePeer(storeID)`: the first peer located on the store. -/
def GetStorePeer (region : RegionInfo) (storeID : Nat) : Option Peer :=
  region.peers.find? (fun p => p.storeId == storeID)

/-- `StoresStats.GetStoreBytesRate` returns the pair
(write bytes rate, read bytes rate) of a store. -/
def StoresStats : Type := Nat → Nat × Nat

/-- `RegionHeartBeatReportInterval` = 60 seconds. -/
def RegionHeartBeatReportInterval : Nat := 60

/-- `hotPeerMaxCount` = 400, the divisor of the adaptive threshold. -/
def hotPeerMaxCount : Nat := 400

/-- `rollingWindowsSize` = 5. -/
def rollingWindowsSize : Nat := 5

/-- `hotWriteRegionMinFlowRate` = 16 KiB/s. -/
def hotWriteRegionMinFlowRate : Nat := 16 * 1024

/-- `hotReadRegionMinFlowRate` = 128 KiB/s. -/
def hotReadRegionMinFlowRate : Nat := 128 * 1024

/-- `hotRegionReportMinInterval` = 3 seconds. -/
def hotRegionReportMinInterval : Int := 3

/-- `hotRegionAntiCount` = 1. -/
def hotRegionAntiCount : Int := 1

/-- `HotPeerStat`: one (store, region, kind) observation.  `rollingId` is
the identifier of the owned rolling window inside the window heap; `none`
models the nil `RollingBytesRate` pointer of a freshly built item. -/
structure HotPeerStat where
  storeId : Nat
  regionId : Nat
  kind : FlowKind
  bytesRate : Nat
  keysRate : Nat
  lastUpdateTime : Int
  version : Nat
  hotDegree : Int
  antiCount : Int
  rollingId : Option Nat
  isNew : Bool
  needDelete : Bool
  isLeader : Bool
deriving DecidableEq

/-- Heap of rolling windows: `data i` is the sample list (most recent
first) of window `i`; identifiers below `next` are allocated. -/
structure WindowHeap where
  next : Nat
  data : Nat → List Nat

/-- Modelled from the spec: `NewRollingStats(rollingWindowsSize)` (the
`RollingStats` implementation lives outside `src/`) allocates a fresh,
empty rolling window and returns its identifier. -/
def NewRollingStats (h : WindowHeap) : Nat × WindowHeap :=
  (h.next, { next := h.next + 1, data := h.data })

/-- Modelled from the spec: `RollingStats.Add` appends a sample to the
window, discarding samples older than the last `rollingWindowsSize` ones.
A `none` identifier (nil pointer) leaves the heap unchanged; the source
never reaches `Add` with a nil window. -/
def rollingAdd (h : WindowHeap) (wid : Option Nat) (x : Nat) : WindowHeap :=
  match wid with
  | none => h
  | some i =>
    { h with data := fun j =>
        if j = i then x :: (h.data i).take (rollingWindowsSize - 1) else h.data j }

/-- State of one `hotPeerCache` (per flow kind): the by-store index, the
reverse by-region index, and the heap holding every rolling window.  The
bounded caches `cache.Cache` are modelled as association lists; the
`storesOfRegion` sets as lists of store ids. -/
structure CacheState where
  peersOfStore : Nat → Option (List (Nat × HotPeerStat))
  storesOfRegion : Nat → Option (List Nat)
  windows : WindowHeap

/-- The state produced by `NewHotStoresStats`: both maps empty. -/
def emptyCacheState : CacheState :=
  { peersOfStore := fun _ => none
    storesOfRegion := fun _ => none
    windows := { next := 0, data := fun _ => [] } }

/-- `getBytesFlow`: written bytes for write kind, read bytes for read. -/
def getBytesFlow (kind : FlowKind) (region : RegionInfo) : Nat :=
  match kind with
  | .write => region.bytesWritten
  | .read => region.bytesRead

/-- `getKeysFlow`: written keys for write kind, read keys for read. -/
def getKeysFlow (kind : FlowKind) (region : RegionInfo) : Nat :=
  match kind with
  | .write => region.keysWritten
  | .read => region.keysRead

/-- `isRegionExpired`: write kind when the region has no peer on the
store, read kind when the store is not the current leader's store. -/
def isRegionExpired (kind : FlowKind) (region : RegionInfo) (storeID : Nat) : Bool :=
  match kind with
  | .write => (GetStorePeer region storeID).isNone
  | .read => leaderStoreId region != storeID

/-- `calculateWriteHotThresholdWithStore`: store write rate divided by
`hotPeerMaxCount`, floored at `hotWriteRegionMinFlowRate`. -/
def calculateWriteHotThresholdWithStore (stats : StoresStats) (storeID : Nat) : Nat :=
  let writeBytes := (stats storeID).1
  let hotRegionThreshold := writeBytes / hotPeerMaxCount
  if hotRegionThreshold < hotWriteRegionMinFlowRate then hotWriteRegionMinFlowRate
  else hotRegionThreshold

/-- `calculateReadHotThresholdWithStore`: store read rate divided by
`hotPeerMaxCount`, floored at `hotReadRegionMinFlowRate`. -/
def calculateReadHotThresholdWithStore (stats : StoresStats) (storeID : Nat) : Nat :=
  let readBytes := (stats storeID).2
  let hotRegionThreshold := readBytes / hotPeerMaxCount
  if hotRegionThreshold < hotReadRegionMinFlowRate then hotReadRegionMinFlowRate
  else hotRegionThreshold

/-- `calcHotThreshold` dispatches on the flow kind. -/
def calcHotThreshold (kind : FlowKind) (stats : StoresStats) (storeID : Nat) : Nat :=
  match kind with
  | .write => calculateWriteHotThresholdWithStore stats storeID
  | .read => calculateReadHotThresholdWithStore stats storeID

/-- `getOldHotPeerStat`: peek the cached stat of (region, store). -/
def getOldHotPeerStat (σ : CacheState) (regionID storeID : Nat) : Option HotPeerStat :=
  match σ.peersOfStore storeID with
  | some peers => (peers.find? (fun e => e.1 == regionID)).map (fun e => e.2)
  | none => none

/-- `getAllStoreIDs`: previously observed stores of the region joined
with the store ids of the current peers; for read kind only the leader
peer is considered.  Order: old stores first, then new peers in list
order, without duplicates. -/
def getAllStoreIDs (kind : FlowKind) (σ : CacheState) (region : RegionInfo) : List Nat :=
  let olds := (σ.storesOfRegion region.id).getD []
  region.peers.foldl
    (fun acc p =>
      if kind = .read ∧ p.storeId ≠ leaderStoreId region then acc
      else if p.storeId ∈ acc then acc else acc ++ [p.storeId])
    olds

/-- Rate computation `uint64(float64(flow) / interval)` for a positive
interval measured in whole seconds.  For a nonpositive interval the Go
conversion of the non-finite or negative float is implementation-defined;
it is modelled as 0 here and no theorem depends on that value. -/
def rateOver (flow : Nat) (interval : Int) : Nat :=
  if 0 < interval then flow / interval.toNat else 0

/-- The `HotPeerStat` literal built inside `CheckRegionFlow` (lines
95-105 of `hot_peer_cache.go`): zero-valued degree, anti count, rolling
window and `isNew`; `needDelete` is the expiry of the peer. -/
def NewItem (kind : FlowKind) (region : RegionInfo) (storeID : Nat)
    (bytesPerSec keysPerSec : Nat) (now : Int) : HotPeerStat :=
  { storeId := storeID
    regionId := region.id
    kind := kind
    bytesRate := bytesPerSec
    keysRate := keysPerSec
    lastUpdateTime := now
    version := region.version
    hotDegree := 0
    antiCount := 0
    rollingId := none
    isNew := false
    needDelete := isRegionExpired kind region storeID
    isLeader := leaderStoreId region == storeID }

/-- `updateHotPeerStat`: the hot-degree state machine.  Returns the
emitted item (or `none` to drop) together with the window heap, which
receives the sample added by `RollingBytesRate.Add`. -/
def updateHotPeerStat (newItem : HotPeerStat) (oldItem : Option HotPeerStat)
    (bytesRate hotThreshold : Nat) (h : WindowHeap) : Option HotPeerStat × WindowHeap :=
  let isHot := hotThreshold ≤ bytesRate
  if newItem.needDelete then (some newItem, h)
  else
    match oldItem with
    | some old =>
      let n1 := { newItem with rollingId := old.rollingId }
      let n2 :=
        if isHot then
          { n1 with hotDegree := old.hotDegree + 1, antiCount := hotRegionAntiCount }
        else
          let n := { n1 with hotDegree := old.hotDegree - 1, antiCount := old.antiCount - 1 }
          if n.antiCount < 0 then { n with needDelete := true } else n
      (some n2, rollingAdd h n2.rollingId bytesRate)
    | none =>
      if isHot then
        let fresh := NewRollingStats h
        let n := { newItem with
                    rollingId := some fresh.1,
                    antiCount := hotRegionAntiCount,
                    isNew := true }
        (some n, rollingAdd fresh.2 n.rollingId bytesRate)
      else (none, h)

/-- The body of the per-store loop of `CheckRegionFlow` (lines 78-111):
denoising may skip the store (`none` emission), otherwise the rates are
either the nominal-interval rates or recomputed over the real interval,
and the state machine is run. -/
def CheckStore (kind : FlowKind) (σ : CacheState) (region : RegionInfo)
    (stats : StoresStats) (now : Int) (denoising : Bool) (storeID : Nat)
    (h : WindowHeap) : Option HotPeerStat × WindowHeap :=
  let bytesFlow := getBytesFlow kind region
  let keysFlow := getKeysFlow kind region
  let isExpired := isRegionExpired kind region storeID
  let oldItem := getOldHotPeerStat σ region.id storeID
  let rates : Option (Nat × Nat) :=
    match oldItem with
    | some old =>
      if denoising then
        let interval := now - old.lastUpdateTime
        if interval < hotRegionReportMinInterval ∧ isExpired = false then none
        else some (rateOver bytesFlow interval, rateOver keysFlow interval)
      else
        some (bytesFlow / RegionHeartBeatReportInterval,
              keysFlow / RegionHeartBeatReportInterval)
    | none =>
      some (bytesFlow / RegionHeartBeatReportInterval,
            keysFlow / RegionHeartBeatReportInterval)
  match rates with
  | none => (none, h)
  | some (bytesPerSec, keysPerSec) =>
    let newItem := NewItem kind region storeID bytesPerSec keysPerSec now
    let hotThreshold := calcHotThreshold kind stats storeID
    updateHotPeerStat newItem oldItem bytesPerSec hotThreshold h

/-- One iteration of the store loop of `CheckRegionFlow`: run
`CheckStore` on the accumulated heap and append the emitted item, if
any, to the result list. -/
def CheckStep (kind : FlowKind) (σ : CacheState) (region : RegionInfo)
    (stats : StoresStats) (now : Int) (denoising : Bool)
    (acc : List HotPeerStat × WindowHeap) (storeID : Nat) :
    List HotPeerStat × WindowHeap :=
  match CheckStore kind σ region stats now denoising storeID acc.2 with
  | (some item, h) => (acc.1 ++ [item], h)
  | (none, h) => (acc.1, h)

/-- `CheckRegionFlow`: visit every candidate store and collect the
emitted candidate updates.  The returned state differs from the input
only in the window heap (the maps are read, never written). -/
def CheckRegionFlow (kind : FlowKind) (σ : CacheState) (region : RegionInfo)
    (stats : StoresStats) (now : Int) (denoising : Bool) :
    List HotPeerStat × CacheState :=
  let storeIDs := getAllStoreIDs kind σ region
  let r := storeIDs.foldl (CheckStep kind σ region stats now denoising) ([], σ.windows)
  (r.1, { σ with windows := r.2 })

/-- `Update`: apply one candidate item.  A tombstone removes the pair
from both indices; otherwise the item is put into the store's cache and
the store inserted into the region's store set.  `evict` models the
silent eviction the bounded 2Q cache (outside `src/`) may perform on
`Put`, per the spec: at most one key, never the key just inserted. -/
def Update (σ : CacheState) (item : HotPeerStat) (evict : Option Nat) : CacheState :=
  if item.needDelete then
    { σ with
      peersOfStore := fun s =>
        if s = item.storeId then
          (σ.peersOfStore s).map (fun c => c.filter (fun e => !(e.1 == item.regionId)))
        else σ.peersOfStore s
      storesOfRegion := fun r =>
        if r = item.regionId then
          (σ.storesOfRegion r).map (fun l => l.filter (fun s => !(s == item.storeId)))
        else σ.storesOfRegion r }
  else
    let c0 := (σ.peersOfStore item.storeId).getD []
    let c1 := (item.regionId, item) :: c0.filter (fun e => !(e.1 == item.regionId))
    let c2 :=
      match evict with
      | some k => if k = item.regionId then c1 else c1.filter (fun e => !(e.1 == k))
      | none => c1
    let l0 := (σ.storesOfRegion item.regionId).getD []
    let l1 := if item.storeId ∈ l0 then l0 else l0 ++ [item.storeId]
    { σ with
      peersOfStore := fun s => if s = item.storeId then some c2 else σ.peersOfStore s
      storesOfRegion := fun r => if r = item.regionId then some l1 else σ.storesOfRegion r }

/-- The pair (store, region) is present in the by-store index. -/
def PairIn (σ : CacheState) (s r : Nat) : Prop :=
  ∃ c, σ.peersOfStore s = some c ∧ ∃ e ∈ c, e.1 = r

/-- The store is recorded in the region's reverse-index set. -/
def StoreIn (σ : CacheState) (s r : Nat) : Prop :=
  ∃ l, σ.storesOfRegion r = some l ∧ s ∈ l

/-- Forward mutual-consistency: every pair of the by-store index is
mirrored in the reverse index. -/
def ForwardInv (σ : CacheState) : Prop :=
  ∀ s r, PairIn σ s r → StoreIn σ s r

/-- States reachable from the empty cache by `Update` steps, with an
arbitrary eviction choice at each step. -/
inductive Reachable : CacheState → Prop where
  | empty : Reachable emptyCacheState
  | step : ∀ σ item evict, Reachable σ → Reachable (Update σ item evict)

/-- The caller side of the Check-then-Update heartbeat cycle: apply
every candidate returned by a check through `Update` (as
`HotSpotCache.Update` does for each item), with no eviction. -/
def applyAll (σ : CacheState) (items : List HotPeerStat) : CacheState :=
  items.foldl (fun σ item => Update σ item none) σ

/-- A `StoresStats` reporting zero byte rates on every store. -/
def statsZero : StoresStats := fun _ => (0, 0)

/-- A peer of the concrete scenarios, on store 1. -/
def peerOn1 : Peer := { id := 11, storeId := 1 }

/-- Concrete region 1 with a single peer on store 1 (the leader) and a
heavy write counter: 6 MiB per nominal interval. -/
def regionHotW : RegionInfo :=
  { id := 1, version := 1, peers := [peerOn1], leader := some peerOn1,
    bytesWritten := 6291456, keysWritten := 600, bytesRead := 0, keysRead := 0 }

/-- The same region reporting a cold write counter of 1 KiB. -/
def regionColdW : RegionInfo :=
  { regionHotW with bytesWritten := 1024, keysWritten := 10 }

/-- One write-kind Check-then-Update heartbeat at the given time. -/
def heartbeatW (σ : CacheState) (region : RegionInfo) (now : Int) : CacheState :=
  let r := CheckRegionFlow .write σ region statsZero now true
  applyAll r.2 r.1

/-- State after a first hot write heartbeat at t = 0. -/
def coolSt1 : CacheState := heartbeatW emptyCacheState regionHotW 0

/-- State after a second hot write heartbeat at t = 10: the cached stat
has reached hot degree 1 with anti count 1. -/
def coolSt2 : CacheState := heartbeatW coolSt1 regionHotW 10

/-- State after one cold write heartbeat at t = 20. -/
def coolSt3 : CacheState := heartbeatW coolSt2 regionColdW 20

/-- A live cached stat with hot degree 5 owning window 0, on store 2. -/
def oldDeg5 : HotPeerStat :=
  { storeId := 2, regionId := 3, kind := .write, bytesRate := 100, keysRate := 1,
    lastUpdateTime := 0, version := 1, hotDegree := 5, antiCount := 1,
    rollingId := some 0, isNew := false, needDelete := false, isLeader := false }

/-- Cache state holding `oldDeg5` for region 3 on store 2; window 0
holds one sample. -/
def sigmaExpired : CacheState :=
  { peersOfStore := fun s => if s = 2 then some [(3, oldDeg5)] else none,
    storesOfRegion := fun r => if r = 3 then some [2] else none,
    windows := { next := 1, data := fun i => if i = 0 then [7] else [] } }

/-- Region 3 after losing all of its peers (and its leader). -/
def regionNoPeers : RegionInfo :=
  { id := 3, version := 2, peers := [], leader := none,
    bytesWritten := 6291456, keysWritten := 600, bytesRead := 0, keysRead := 0 }

/-- A live cached stat for region 1 on store 1, last updated at t = 100,
owning window 0. -/
def oldAt100 : HotPeerStat :=
  { storeId := 1, regionId := 1, kind := .write, bytesRate := 100, keysRate := 1,
    lastUpdateTime := 100, version := 1, hotDegree := 5, antiCount := 1,
    rollingId := some 0, isNew := false, needDelete := false, isLeader := true }

/-- Cache state holding `oldAt100`; window 0 holds one sample. -/
def sigmaReg : CacheState :=
  { peersOfStore := fun s => if s = 1 then some [(1, oldAt100)] else none,
    storesOfRegion := fun r => if r = 1 then some [1] else none,
    windows := { next := 1, data := fun i => if i = 0 then [7] else [] } }

/-- A freshly promoted live stat for region 1 on store 1, reported at
t = 10. -/
def freshItem : HotPeerStat :=
  { storeId := 1, regionId := 1, kind := .write, bytesRate := 104857, keysRate := 10,
    lastUpdateTime := 10, version := 1, hotDegree := 0, antiCount := 1,
    rollingId := some 0, isNew := true, needDelete := false, isLeader := true }

/-- A tombstone item returned by the state machine is the new item
itself, untouched, and the heap receives no sample. -/
lemma updateHotPeerStat_needDelete {n : HotPeerStat} (old : Option HotPeerStat)
    (bps t : Nat) (h : WindowHeap) (hnd : n.needDelete = true) :
    updateHotPeerStat n old bps t h = (some n, h) := by
  simp [updateHotPeerStat, hnd]

/-- The state machine never changes the identifying fields, the rates or
the timestamp of the item it emits. -/
lemma updateHotPeerStat_some_fields {n : HotPeerStat} {old : Option HotPeerStat}
    {bps t : Nat} {h : WindowHeap} {m : HotPeerStat} {h2 : WindowHeap}
    (he : updateHotPeerStat n old bps t h = (some m, h2)) :
    m.storeId = n.storeId ∧ m.regionId = n.regionId ∧ m.bytesRate = n.bytesRate
      ∧ m.keysRate = n.keysRate ∧ m.lastUpdateTime = n.lastUpdateTime := by
  simp only [updateHotPeerStat] at he
  split at he
  · obtain ⟨h1, h2⟩ := Prod.mk.injEq .. ▸ he
    cases h1
    exact ⟨rfl, rfl, rfl, rfl, rfl⟩
  · split at he
    · split at he
      · obtain ⟨h1, -⟩ := Prod.mk.injEq .. ▸ he
        cases h1
        exact ⟨rfl, rfl, rfl, rfl, rfl⟩
      · split at he
        · obtain ⟨h1, -⟩ := Prod.mk.injEq .. ▸ he
          cases h1
          exact ⟨rfl, rfl, rfl, rfl, rfl⟩
        · obtain ⟨h1, -⟩ := Prod.mk.injEq .. ▸ he
          cases h1
          exact ⟨rfl, rfl, rfl, rfl, rfl⟩
    · split at he
      · obtain ⟨h1, -⟩ := Prod.mk.injEq .. ▸ he
        cases h1
        exact ⟨rfl, rfl, rfl, rfl, rfl⟩
      · simp at he

/-- Whatever `CheckStore` emits for a store carries that store's id. -/
lemma CheckStore_some_storeId {kind : FlowKind} {σ : CacheState} {region : RegionInfo}
    {stats : StoresStats} {now : Int} {den : Bool} {storeID : Nat} {h : WindowHeap}
    {x : HotPeerStat} {h2 : WindowHeap}
    (he : CheckStore kind σ region stats now den storeID h = (some x, h2)) :
    x.storeId = storeID := by
  simp only [CheckStore] at he
  split at he
  · simp at he
  · exact (updateHotPeerStat_some_fields he).1

/-- With denoising on, a cached old item younger than the minimal report
interval on a non-expired store makes `CheckStore` skip the store. -/
lemma CheckStore_skip {kind : FlowKind} {σ : CacheState} {region : RegionInfo}
    {stats : StoresStats} {now : Int} {storeID : Nat} {o : HotPeerStat} (h : WindowHeap)
    (hold : getOldHotPeerStat σ region.id storeID = some o)
    (hint : now - o.lastUpdateTime < hotRegionReportMinInterval)
    (hexp : isRegionExpired kind region storeID = false) :
    CheckStore kind σ region stats now true storeID h = (none, h) := by
  simp [CheckStore, hold, hexp, hint]

/-- With denoising on and no skip, `CheckStore` recomputes both rates
over the real interval and runs the state machine on them. -/
lemma CheckStore_recompute {kind : FlowKind} {σ : CacheState} {region : RegionInfo}
    {stats : StoresStats} {now : Int} {storeID : Nat} {o : HotPeerStat} (h : WindowHeap)
    (hold : getOldHotPeerStat σ region.id storeID = some o)
    (hno : ¬(now - o.lastUpdateTime < hotRegionReportMinInterval
        ∧ isRegionExpired kind region storeID = false)) :
    CheckStore kind σ region stats now true storeID h =
      updateHotPeerStat
        (NewItem kind region storeID
          (rateOver (getBytesFlow kind region) (now - o.lastUpdateTime))
          (rateOver (getKeysFlow kind region) (now - o.lastUpdateTime)) now)
        (some o)
        (rateOver (getBytesFlow kind region) (now - o.lastUpdateTime))
        (calcHotThreshold kind stats storeID) h := by
  simp [CheckStore, hold, hno]

/-- On an expired store every item `CheckStore` emits is a tombstone. -/
lemma CheckStore_expired_needDelete {kind : FlowKind} {σ : CacheState}
    {region : RegionInfo} {stats : StoresStats} {now : Int} {den : Bool}
    {storeID : Nat} {h : WindowHeap} {x : HotPeerStat} {h2 : WindowHeap}
    (hexp : isRegionExpired kind region storeID = true)
    (he : CheckStore kind σ region stats now den storeID h = (some x, h2)) :
    x.needDelete = true := by
  simp only [CheckStore] at he
  split at he
  · simp at he
  next bytesPerSec keysPerSec heq =>
    rw [updateHotPeerStat_needDelete _ _ _ _ (by simp [NewItem, hexp])] at he
    obtain ⟨h1, -⟩ := Prod.mk.injEq .. ▸ he
    cases h1
    simp [NewItem, hexp]

/-- Every item collected by the store loop was emitted by `CheckStore`
for some visited store. -/
lemma mem_foldl_CheckStep {kind : FlowKind} {σ : CacheState} {region : RegionInfo}
    {stats : StoresStats} {now : Int} {den : Bool} :
    ∀ (L : List Nat) (acc : List HotPeerStat × WindowHeap) (x : HotPeerStat),
      x ∈ (L.foldl (CheckStep kind σ region stats now den) acc).1 →
      x ∈ acc.1 ∨ ∃ s, s ∈ L ∧ ∃ h h2, CheckStore kind σ region stats now den s h = (some x, h2) := by
  intro L
  induction L with
  | nil => exact fun acc x hx => Or.inl hx
  | cons a L ih =>
    intro acc x hx
    simp only [List.foldl_cons] at hx
    rcases ih _ x hx with hx' | ⟨s, hs, h, h2, he⟩
    · unfold CheckStep at hx'
      rcases hCS : CheckStore kind σ region stats now den a acc.2 with ⟨oi, hh⟩
      rw [hCS] at hx'
      cases oi with
      | some item =>
        rcases List.mem_append.mp hx' with h1 | h1
        · exact Or.inl h1
        · refine Or.inr ⟨a, List.mem_cons_self a L, acc.2, hh, ?_⟩
          rw [← List.mem_singleton.mp h1] at hCS
          exact hCS
      | none => exact Or.inl hx'
    · exact Or.inr ⟨s, List.mem_cons_of_mem a hs, h, h2, he⟩

/-- Every item returned by `CheckRegionFlow` was emitted by `CheckStore`
for some store of the candidate set. -/
lemma mem_CheckRegionFlow {kind : FlowKind} {σ : CacheState} {region : RegionInfo}
    {stats : StoresStats} {now : Int} {den : Bool} {x : HotPeerStat}
    (hx : x ∈ (CheckRegionFlow kind σ region stats now den).1) :
    ∃ s, s ∈ getAllStoreIDs kind σ region
      ∧ ∃ h h2, CheckStore kind σ region stats now den s h = (some x, h2) := by
  simp only [CheckRegionFlow] at hx
  rcases mem_foldl_CheckStep _ _ _ hx with h0 | hgood
  · simp at h0
  · exact hgood

/-- Membership in the peer fold of `getAllStoreIDs`, generalized over
the accumulator. -/
lemma mem_peer_foldl (kind : FlowKind) (region : RegionInfo) :
    ∀ (ps : List Peer) (acc : List Nat) (s : Nat),
      s ∈ ps.foldl
        (fun acc p =>
          if kind = .read ∧ p.storeId ≠ leaderStoreId region then acc
          else if p.storeId ∈ acc then acc else acc ++ [p.storeId])
        acc
      ↔ s ∈ acc ∨ ∃ p, p ∈ ps ∧ p.storeId = s
          ∧ ¬(kind = .read ∧ p.storeId ≠ leaderStoreId region) := by
  intro ps
  induction ps with
  | nil => simp
  | cons a ps ih =>
    intro acc s
    simp only [List.foldl_cons]
    rw [ih]
    constructor
    · rintro (hacc | ⟨p, hp, hps, hkeep⟩)
      · by_cases hk : kind = .read ∧ a.storeId ≠ leaderStoreId region
        · rw [if_pos hk] at hacc
          exact Or.inl hacc
        · rw [if_neg hk] at hacc
          by_cases hmem : a.storeId ∈ acc
          · rw [if_pos hmem] at hacc
            exact Or.inl hacc
          · rw [if_neg hmem] at hacc
            rcases List.mem_append.mp hacc with h1 | h1
            · exact Or.inl h1
            · exact Or.inr ⟨a, List.mem_cons_self a ps, (List.mem_singleton.mp h1).symm, hk⟩
      · exact Or.inr ⟨p, List.mem_cons_of_mem a hp, hps, hkeep⟩
    · rintro (hacc | ⟨p, hp, hps, hkeep⟩)
      · left
        by_cases hk : kind = .read ∧ a.storeId ≠ leaderStoreId region
        · rwa [if_pos hk]
        · rw [if_neg hk]
          by_cases hmem : a.storeId ∈ acc
          · rwa [if_pos hmem]
          · rw [if_neg hmem]
            exact List.mem_append_left _ hacc
      · rcases List.mem_cons.mp hp with h1 | h1
        · subst h1
          left
          rw [if_neg hkeep]
          by_cases hmem : p.storeId ∈ acc
          · rw [if_pos hmem]
            exact hps ▸ hmem
          · rw [if_neg hmem]
            exact List.mem_append.mpr (Or.inr (List.mem_singleton.mpr hps.symm))
        · exact Or.inr ⟨p, h1, hps, hkeep⟩

/-- Membership in the candidate store set: previously observed stores
joined with the kind-filtered current peers. -/
lemma mem_getAllStoreIDs (kind : FlowKind) (σ : CacheState) (region : RegionInfo) (s : Nat) :
    s ∈ getAllStoreIDs kind σ region ↔
      s ∈ (σ.storesOfRegion region.id).getD []
      ∨ ∃ p, p ∈ region.peers ∧ p.storeId = s
          ∧ (kind = .write ∨ p.storeId = leaderStoreId region) := by
  unfold getAllStoreIDs
  rw [mem_peer_foldl]
  constructor
  · rintro (h | ⟨p, hp, hps, hkeep⟩)
    · exact Or.inl h
    · refine Or.inr ⟨p, hp, hps, ?_⟩
      by_cases hw : kind = FlowKind.write
      · exact Or.inl hw
      · have hr : kind = FlowKind.read := by cases kind <;> simp_all
        rcases not_and_or.mp hkeep with h1 | h1
        · exact absurd hr h1
        · exact Or.inr (not_not.mp h1)
  · rintro (h | ⟨p, hp, hps, hkeep⟩)
    · exact Or.inl h
    · refine Or.inr ⟨p, hp, hps, ?_⟩
      rintro ⟨hr, hne⟩
      rcases hkeep with h1 | h1
      · rw [h1] at hr
        exact FlowKind.noConfusion hr
      · exact hne h1

/-- After a non-delete `Update` the cached stat of the item's pair is
the item itself, for any eviction choice. -/
lemma getOld_after_update {σ : CacheState} {item : HotPeerStat} (evict : Option Nat)
    (hnd : item.needDelete = false) :
    getOldHotPeerStat (Update σ item evict) item.regionId item.storeId = some item := by
  simp only [getOldHotPeerStat, Update, hnd]
  cases evict with
  | none => simp [List.find?]
  | some k =>
    by_cases hk : k = item.regionId
    · simp [hk, List.find?]
    · have hbeq : (item.regionId == k) = false := beq_eq_false_iff_ne.mpr (Ne.symm hk)
      simp [hk, hbeq, List.find?]

/-- `Update` touches no store entry other than the item's. -/
lemma update_peers_ne {σ : CacheState} {item : HotPeerStat} {evict : Option Nat} {s : Nat}
    (hs : s ≠ item.storeId) :
    (Update σ item evict).peersOfStore s = σ.peersOfStore s := by
  unfold Update
  split <;> dsimp only <;> rw [if_neg hs]

/-- `Update` touches no region entry other than the item's. -/
lemma update_stores_ne {σ : CacheState} {item : HotPeerStat} {evict : Option Nat} {r : Nat}
    (hr : r ≠ item.regionId) :
    (Update σ item evict).storesOfRegion r = σ.storesOfRegion r := by
  unfold Update
  split <;> dsimp only <;> rw [if_neg hr]

/-- The store entry after a tombstone `Update`: the region filtered out. -/
lemma update_del_peers_self {σ : CacheState} {item : HotPeerStat} {evict : Option Nat}
    (hnd : item.needDelete = true) :
    (Update σ item evict).peersOfStore item.storeId =
      (σ.peersOfStore item.storeId).map
        (fun c => c.filter (fun e => !(e.1 == item.regionId))) := by
  unfold Update
  rw [if_pos hnd]
  dsimp only
  rw [if_pos rfl]

/-- The region entry after a tombstone `Update`: the store filtered out. -/
lemma update_del_stores_self {σ : CacheState} {item : HotPeerStat} {evict : Option Nat}
    (hnd : item.needDelete = true) :
    (Update σ item evict).storesOfRegion item.regionId =
      (σ.storesOfRegion item.regionId).map
        (fun l => l.filter (fun s => !(s == item.storeId))) := by
  unfold Update
  rw [if_pos hnd]
  dsimp only
  rw [if_pos rfl]

/-- The store entry after a non-delete `Update`: the pair is put in
front, the old binding of the region removed, and at most the evicted
key dropped. -/
lemma update_put_peers_self {σ : CacheState} {item : HotPeerStat} {evict : Option Nat}
    (hnd : item.needDelete = false) :
    (Update σ item evict).peersOfStore item.storeId =
      some (
        let c1 := (item.regionId, item) ::
          ((σ.peersOfStore item.storeId).getD []).filter (fun e => !(e.1 == item.regionId))
        match evict with
        | some k => if k = item.regionId then c1 else c1.filter (fun e => !(e.1 == k))
        | none => c1) := by
  unfold Update
  rw [if_neg (by simp [hnd])]
  dsimp only
  rw [if_pos rfl]

/-- The region entry after a non-delete `Update`: the store inserted. -/
lemma update_put_stores_self {σ : CacheState} {item : HotPeerStat} {evict : Option Nat}
    (hnd : item.needDelete = false) :
    (Update σ item evict).storesOfRegion item.regionId =
      some (
        let l0 := (σ.storesOfRegion item.regionId).getD []
        if item.storeId ∈ l0 then l0 else l0 ++ [item.storeId]) := by
  unfold Update
  rw [if_neg (by simp [hnd])]
  dsimp only
  rw [if_pos rfl]

/-- A pair present after a non-delete `Update` is either the inserted
pair or was already present. -/
lemma pairIn_update_put {σ : CacheState} {item : HotPeerStat} {evict : Option Nat} {s r : Nat}
    (hnd : item.needDelete = false)
    (h : PairIn (Update σ item evict) s r) :
    (s = item.storeId ∧ r = item.regionId) ∨ PairIn σ s r := by
  obtain ⟨c', hc', e, he, her⟩ := h
  by_cases hs : s = item.storeId
  · subst hs
    rw [update_put_peers_self hnd] at hc'
    have hc2 := Option.some.inj hc'
    rw [← hc2] at he
    have hmem : e = (item.regionId, item)
        ∨ e ∈ ((σ.peersOfStore item.storeId).getD []).filter (fun e => !(e.1 == item.regionId)) := by
      rcases evict with _ | k
      · simpa using List.mem_cons.mp he
      · dsimp only at he
        by_cases hk : k = item.regionId
        · rw [if_pos hk] at he
          simpa using List.mem_cons.mp he
        · rw [if_neg hk] at he
          have := (List.mem_filter.mp he).1
          simpa using List.mem_cons.mp this
    rcases hmem with h1 | h1
    · left
      exact ⟨rfl, by rw [← her, h1]⟩
    · right
      have he0 := (List.mem_filter.mp h1).1
      rcases hσ : σ.peersOfStore item.storeId with _ | c
      · rw [hσ] at he0
        simp at he0
      · rw [hσ] at he0
        simp only [Option.getD_some] at he0
        exact ⟨c, hσ, e, he0, her⟩
  · right
    rw [update_peers_ne hs] at hc'
    exact ⟨c', hc', e, he, her⟩

/-- A non-delete `Update` only grows the reverse index entries. -/
lemma storeIn_update_put {σ : CacheState} {item : HotPeerStat} {evict : Option Nat} {s r : Nat}
    (hnd : item.needDelete = false)
    (h : StoreIn σ s r) : StoreIn (Update σ item evict) s r := by
  obtain ⟨l, hl, hsl⟩ := h
  by_cases hr : r = item.regionId
  · subst hr
    rw [StoreIn, update_put_stores_self hnd]
    refine ⟨_, rfl, ?_⟩
    simp only [hl, Option.getD_some]
    split
    · exact hsl
    · exact List.mem_append_left _ hsl
  · exact ⟨l, by rw [update_stores_ne hr]; exact hl, hsl⟩

/-- After a non-delete `Update` the inserted pair is in the reverse
index. -/
lemma storeIn_update_put_self {σ : CacheState} {item : HotPeerStat} {evict : Option Nat}
    (hnd : item.needDelete = false) :
    StoreIn (Update σ item evict) item.storeId item.regionId := by
  rw [StoreIn, update_put_stores_self hnd]
  refine ⟨_, rfl, ?_⟩
  dsimp only
  split
  · assumption
  · exact List.mem_append_right _ (List.mem_singleton.mpr rfl)

/-- After a non-delete `Update` the inserted pair is in the by-store
index. -/
lemma pairIn_update_put_self {σ : CacheState} {item : HotPeerStat} {evict : Option Nat}
    (hnd : item.needDelete = false) :
    PairIn (Update σ item evict) item.storeId item.regionId := by
  rw [PairIn, update_put_peers_self hnd]
  refine ⟨_, rfl, (item.regionId, item), ?_, rfl⟩
  rcases evict with _ | k
  · exact List.mem_cons_self _ _
  · dsimp only
    by_cases hk : k = item.regionId
    · rw [if_pos hk]
      exact List.mem_cons_self _ _
    · rw [if_neg hk]
      refine List.mem_filter.mpr ⟨List.mem_cons_self _ _, ?_⟩
      simp [Ne.symm hk]

/-- A pair present after a tombstone `Update` was present before and is
not the deleted pair. -/
lemma pairIn_update_del {σ : CacheState} {item : HotPeerStat} {evict : Option Nat} {s r : Nat}
    (hnd : item.needDelete = true)
    (h : PairIn (Update σ item evict) s r) :
    PairIn σ s r ∧ ¬(s = item.storeId ∧ r = item.regionId) := by
  obtain ⟨c', hc', e, he, her⟩ := h
  by_cases hs : s = item.storeId
  · subst hs
    rw [update_del_peers_self hnd] at hc'
    rcases hσ : σ.peersOfStore item.storeId with _ | c
    · rw [hσ] at hc'
      simp at hc'
    · rw [hσ] at hc'
      simp only [Option.map_some'] at hc'
      have hc2 := Option.some.inj hc'
      rw [← hc2] at he
      obtain ⟨he0, hpred⟩ := List.mem_filter.mp he
      have hner : e.1 ≠ item.regionId := by simpa using hpred
      exact ⟨⟨c, hσ, e, he0, her⟩, fun hx => hner (her.trans hx.2)⟩
  · rw [update_peers_ne hs] at hc'
    exact ⟨⟨c', hc', e, he, her⟩, fun hx => hs hx.1⟩

/-- A tombstone `Update` keeps every reverse-index edge other than the
deleted one. -/
lemma storeIn_update_del {σ : CacheState} {item : HotPeerStat} {evict : Option Nat} {s r : Nat}
    (hnd : item.needDelete = true)
    (h : StoreIn σ s r) (hne : ¬(s = item.storeId ∧ r = item.regionId)) :
    StoreIn (Update σ item evict) s r := by
  obtain ⟨l, hl, hsl⟩ := h
  by_cases hr : r = item.regionId
  · subst hr
    have hs : s ≠ item.storeId := fun hs => hne ⟨hs, rfl⟩
    rw [StoreIn, update_del_stores_self hnd, hl]
    exact ⟨_, rfl, List.mem_filter.mpr ⟨hsl, by simp [hs]⟩⟩
  · exact ⟨l, by rw [update_stores_ne hr]; exact hl, hsl⟩

/-- After a tombstone `Update` the deleted pair is in neither index. -/
lemma update_del_self_removed {σ : CacheState} {item : HotPeerStat} {evict : Option Nat}
    (hnd : item.needDelete = true) :
    ¬ PairIn (Update σ item evict) item.storeId item.regionId
    ∧ ¬ StoreIn (Update σ item evict) item.storeId item.regionId := by
  constructor
  · intro h
    exact (pairIn_update_del hnd h).2 ⟨rfl, rfl⟩
  · rintro ⟨l, hl, hsl⟩
    rw [update_del_stores_self hnd] at hl
    rcases hσ : σ.storesOfRegion item.regionId with _ | l0
    · rw [hσ] at hl
      simp at hl
    · rw [hσ] at hl
      simp only [Option.map_some'] at hl
      rw [← Option.some.inj hl] at hsl
      have := (List.mem_filter.mp hsl).2
      simp at this

/-- The forward invariant holds in the empty cache. -/
lemma forwardInv_empty : ForwardInv emptyCacheState := by
  rintro s r ⟨c, hc, -⟩
  simp [emptyCacheState] at hc

/-- One `Update` step preserves the forward invariant, for any eviction
choice. -/
lemma forwardInv_update {σ : CacheState} (item : HotPeerStat) (evict : Option Nat)
    (hInv : ForwardInv σ) : ForwardInv (Update σ item evict) := by
  intro s r hpair
  by_cases hnd : item.needDelete = true
  · obtain ⟨hold, hne⟩ := pairIn_update_del hnd hpair
    exact storeIn_update_del hnd (hInv s r hold) hne
  · have hnd' : item.needDelete = false := by
      cases h : item.needDelete
      · rfl
      · exact absurd h hnd
    rcases pairIn_update_put hnd' hpair with ⟨hs, hr⟩ | hold
    · subst hs
      subst hr
      exact storeIn_update_put_self hnd'
    · exact storeIn_update_put hnd' (hInv s r hold)

/-- Every reachable state satisfies the forward invariant. -/
lemma forwardInv_reachable {σ : CacheState} (h : Reachable σ) : ForwardInv σ := by
  induction h with
  | empty => exact forwardInv_empty
  | step σ item evict _ ih => exact forwardInv_update item evict ih

/-- C1: on a non-expired new stat, the state machine drops a
below-threshold observation with no prior stat; promotes an
at-or-above-threshold observation with no prior stat to hot degree 0,
anti count `hotRegionAntiCount` = 1, `isNew` = true, `needDelete` =
false, with a freshly allocated rolling window holding the sample; and
on an at-or-above-threshold observation with a prior stat emits hot
degree `old.hotDegree + 1`, anti count `hotRegionAntiCount`, `isNew` =
false, `needDelete` = false. -/
theorem updateHotPeerStat_basic_rows
    (kind : FlowKind) (region : RegionInfo) (storeID bps kps hotThreshold : Nat)
    (now : Int) (h : WindowHeap)
    (hexp : isRegionExpired kind region storeID = false) :
    (bps < hotThreshold →
      updateHotPeerStat (NewItem kind region storeID bps kps now) none bps hotThreshold h
        = (none, h))
    ∧ (hotThreshold ≤ bps → h.data h.next = [] →
      (updateHotPeerStat (NewItem kind region storeID bps kps now) none bps hotThreshold h).1.map
          (fun m => (m.hotDegree, m.antiCount, m.isNew, m.needDelete, m.rollingId))
        = some (0, hotRegionAntiCount, true, false, some h.next)
      ∧ (updateHotPeerStat (NewItem kind region storeID bps kps now) none bps hotThreshold h).2.data
          h.next = [bps])
    ∧ (∀ old : HotPeerStat, hotThreshold ≤ bps →
      (updateHotPeerStat (NewItem kind region storeID bps kps now) (some old) bps hotThreshold
          h).1.map (fun m => (m.hotDegree, m.antiCount, m.isNew, m.needDelete))
        = some (old.hotDegree + 1, hotRegionAntiCount, false, false))
    ∧ hotRegionAntiCount = 1 := by
  refine ⟨fun hcold => ?_, fun hhot hdata => ⟨?_, ?_⟩, fun old hhot => ?_, rfl⟩
  · simp [updateHotPeerStat, NewItem, hexp, Nat.not_le.mpr hcold]
  · simp [updateHotPeerStat, NewItem, hexp, hhot, NewRollingStats]
  · simp [updateHotPeerStat, NewItem, hexp, hhot, NewRollingStats, rollingAdd, hdata]
  · simp [updateHotPeerStat, NewItem, hexp, hhot]

/-- Witness for C1: a concrete hot first observation on store 1 of
region 1 emits a stat with hot degree 0, anti count 1, `isNew`, a fresh
window 0, and the heap holds the sample. -/
theorem updateHotPeerStat_basic_rows_witness :
    (updateHotPeerStat (NewItem .write regionHotW 1 500000 600 0) none 500000 16384
        { next := 0, data := fun _ => [] }).1.map
        (fun m => (m.hotDegree, m.antiCount, m.isNew, m.needDelete, m.rollingId))
      = some (0, hotRegionAntiCount, true, false, some 0)
    ∧ (updateHotPeerStat (NewItem .write regionHotW 1 500000 600 0) none 500000 16384
        { next := 0, data := fun _ => [] }).2.data 0 = [500000] :=
  (updateHotPeerStat_basic_rows .write regionHotW 1 500000 600 16384 0
    { next := 0, data := fun _ => [] } (by decide)).2.1 (by decide) rfl

/-- C2 counterexample: after two hot heartbeats (H = 1, anti count 1),
the second consecutive cold heartbeat — the (H + ANTI_COUNT + 1)-th
would be the third — already emits a tombstone with anti count −1,
contradicting both `hot_degree = H − k` with `anti_count ≥ 0` at k = 2
and the predicted tombstone position. -/
theorem cooling_schedule_counterexample :
    ((getOldHotPeerStat coolSt2 1 1).map (fun x => (x.hotDegree, x.antiCount, x.needDelete))
      = some (1, 1, false))
    ∧ ((getOldHotPeerStat coolSt3 1 1).map (fun x => (x.hotDegree, x.antiCount, x.needDelete))
      = some (0, 0, false))
    ∧ ((CheckRegionFlow .write coolSt3 regionColdW statsZero 30 true).1.map
        (fun x => (x.hotDegree, x.antiCount, x.needDelete))
      = [(-1, -1, true)]) := by
  decide

/-- C2 amended: from a live stat whose anti count is positive, a cold
heartbeat emits hot degree `old.hotDegree − 1`, anti count
`old.antiCount − 1` and no tombstone (so from `antiCount =
hotRegionAntiCount` = 1 the first cold tick reaches anti count 0); from
a live stat with anti count 0 the next — the (ANTI_COUNT + 1)-th
consecutive — cold heartbeat emits a tombstone with anti count −1. -/
theorem cooling_schedule_amended
    (kind : FlowKind) (region : RegionInfo) (storeID bps kps hotThreshold : Nat)
    (now : Int) (h : WindowHeap) (old : HotPeerStat)
    (hexp : isRegionExpired kind region storeID = false)
    (hcold : bps < hotThreshold) :
    (0 < old.antiCount →
      (updateHotPeerStat (NewItem kind region storeID bps kps now) (some old) bps hotThreshold
          h).1.map (fun m => (m.hotDegree, m.antiCount, m.needDelete))
        = some (old.hotDegree - 1, old.antiCount - 1, false))
    ∧ (old.antiCount = 0 →
      (updateHotPeerStat (NewItem kind region storeID bps kps now) (some old) bps hotThreshold
          h).1.map (fun m => (m.hotDegree, m.antiCount, m.needDelete))
        = some (old.hotDegree - 1, -1, true)) := by
  have h1 : ¬(hotThreshold ≤ bps) := Nat.not_le.mpr hcold
  constructor
  · intro hpos
    have h2 : ¬(old.antiCount - 1 < 0) := by omega
    simp [updateHotPeerStat, NewItem, hexp, h1, h2]
  · intro hzero
    have h2 : old.antiCount - 1 < 0 := by omega
    simp [updateHotPeerStat, NewItem, hexp, h1, h2, hzero]

/-- Witness for C2 (amended): a concrete cold tick on the live stat of
hot degree 5 and anti count 1 emits (4, 0, false). -/
theorem cooling_schedule_amended_witness :
    (updateHotPeerStat (NewItem .write regionHotW 1 5 5 20) (some oldDeg5) 5 16384
        { next := 1, data := fun _ => [] }).1.map
        (fun m => (m.hotDegree, m.antiCount, m.needDelete))
      = some (4, 0, false) := by
  have happ := (cooling_schedule_amended .write regionHotW 1 5 5 16384 20
    { next := 1, data := fun _ => [] } oldDeg5 (by decide) (by decide)).1 (by decide)
  simpa using happ

/-- C3 counterexample: an expired write peer with a cached old stat of
hot degree 5 owning window 0 yields a tombstone with hot degree 0, anti
count 0, a nil rolling window and no sample added — nothing inherited,
contradicting the claimed inheritance. -/
theorem expired_tombstone_counterexample :
    oldDeg5.hotDegree = 5 ∧ oldDeg5.antiCount = 1 ∧ oldDeg5.rollingId = some 0
    ∧ ((CheckRegionFlow .write sigmaExpired regionNoPeers statsZero 10 true).1.map
        (fun x => (x.storeId, x.hotDegree, x.antiCount, x.rollingId, x.isNew, x.needDelete))
      = [(2, 0, 0, none, false, true)])
    ∧ (CheckRegionFlow .write sigmaExpired regionNoPeers statsZero 10 true).2.windows.data 0 = [7]
    ∧ sigmaExpired.windows.data 0 = [7] := by
  refine ⟨by decide, by decide, by decide, by decide, by decide, by decide⟩

/-- C3 amended: when the new stat is expired the state machine emits it
unchanged — hot degree 0, anti count 0, `isNew` false, nil rolling
window, `needDelete` true — inheriting nothing from the old stat and
adding no sample to any window. -/
theorem expired_tombstone_amended
    (kind : FlowKind) (region : RegionInfo) (storeID bps kps hotThreshold : Nat)
    (now : Int) (h : WindowHeap) (oldItem : Option HotPeerStat)
    (hexp : isRegionExpired kind region storeID = true) :
    updateHotPeerStat (NewItem kind region storeID bps kps now) oldItem bps hotThreshold h
      = (some (NewItem kind region storeID bps kps now), h)
    ∧ (NewItem kind region storeID bps kps now).hotDegree = 0
    ∧ (NewItem kind region storeID bps kps now).antiCount = 0
    ∧ (NewItem kind region storeID bps kps now).rollingId = none
    ∧ (NewItem kind region storeID bps kps now).isNew = false
    ∧ (NewItem kind region storeID bps kps now).needDelete = true := by
  exact ⟨updateHotPeerStat_needDelete _ _ _ _ (by simp [NewItem, hexp]),
    rfl, rfl, rfl, rfl, by simp [NewItem, hexp]⟩

/-- Witness for C3 (amended): concrete expired evaluation on store 2 of
the peerless region. -/
theorem expired_tombstone_amended_witness :
    updateHotPeerStat (NewItem .write regionNoPeers 2 100 1 10) (some oldDeg5) 100 16384
        sigmaExpired.windows
      = (some (NewItem .write regionNoPeers 2 100 1 10), sigmaExpired.windows)
    ∧ (NewItem .write regionNoPeers 2 100 1 10).needDelete = true :=
  ⟨(expired_tombstone_amended .write regionNoPeers 2 100 1 16384 10
      sigmaExpired.windows (some oldDeg5) (by decide)).1,
   (expired_tombstone_amended .write regionNoPeers 2 100 1 16384 10
      sigmaExpired.windows (some oldDeg5) (by decide)).2.2.2.2.2⟩

/-- C4 counterexample: clock regression (now = 50 against a cached stat
from t = 100) on a non-expired peer makes the check skip the store and
return nothing at all, although the nominal-interval rate would have
been at the hot threshold — no fallback to the nominal interval
happens. -/
theorem clock_regression_counterexample :
    (getOldHotPeerStat sigmaReg 1 1).map (fun x => x.lastUpdateTime) = some 100
    ∧ isRegionExpired .write regionHotW 1 = false
    ∧ (CheckRegionFlow .write sigmaReg regionHotW statsZero 50 true).1 = []
    ∧ calcHotThreshold .write statsZero 1
        ≤ getBytesFlow .write regionHotW / RegionHeartBeatReportInterval := by
  refine ⟨by decide, by decide, by decide, by decide⟩

/-- C4 amended: with denoising on, a cached old stat and a regressed
clock (interval ≤ 0), a non-expired store is skipped entirely: the
per-store check emits nothing and no stat for that store appears in the
result of `CheckRegionFlow`. -/
theorem clock_regression_amended
    (kind : FlowKind) (σ : CacheState) (region : RegionInfo) (stats : StoresStats)
    (now : Int) (storeID : Nat) (o : HotPeerStat)
    (hold : getOldHotPeerStat σ region.id storeID = some o)
    (hreg : now - o.lastUpdateTime ≤ 0)
    (hexp : isRegionExpired kind region storeID = false) :
    (∀ h : WindowHeap, CheckStore kind σ region stats now true storeID h = (none, h))
    ∧ ∀ x ∈ (CheckRegionFlow kind σ region stats now true).1, x.storeId ≠ storeID := by
  have hint : now - o.lastUpdateTime < hotRegionReportMinInterval := by
    unfold hotRegionReportMinInterval
    omega
  refine ⟨fun h => CheckStore_skip h hold hint hexp, ?_⟩
  intro x hx hxs
  obtain ⟨s, hs, h, h2, he⟩ := mem_CheckRegionFlow hx
  have hst := CheckStore_some_storeId he
  rw [hst] at hxs
  rw [hxs, CheckStore_skip h hold hint hexp] at he
  exact absurd he (by simp)

/-- Witness for C4 (amended): the concrete regression scenario emits
nothing. -/
theorem clock_regression_amended_witness :
    CheckStore .write sigmaReg regionHotW statsZero 50 true 1 sigmaReg.windows
      = (none, sigmaReg.windows) :=
  (clock_regression_amended .write sigmaReg regionHotW statsZero 50 1 oldAt100
    (by decide) (by decide) (by decide)).1 sigmaReg.windows

/-- C5 counterexample: a read-kind check of a region with no leader but
with a previously observed store returns a non-empty list — a tombstone
for the old store — not the empty list. -/
theorem no_leader_counterexample :
    regionNoPeers.leader = none
    ∧ sigmaExpired.storesOfRegion regionNoPeers.id = some [2]
    ∧ ((CheckRegionFlow .read sigmaExpired regionNoPeers statsZero 10 true).1.map
        (fun x => (x.storeId, x.needDelete)) = [(2, true)]) := by
  refine ⟨by decide, by decide, by decide⟩

/-- An expired store always emits: whatever the cached item, the
denoising branch cannot skip it (the skip requires a non-expired peer)
and the state machine early-returns the tombstone. -/
lemma CheckStore_expired_emits {kind : FlowKind} {σ : CacheState} {region : RegionInfo}
    {stats : StoresStats} {now : Int} {den : Bool} {storeID : Nat} (h : WindowHeap)
    (hexp : isRegionExpired kind region storeID = true) :
    ∃ x h2, CheckStore kind σ region stats now den storeID h = (some x, h2)
      ∧ x.storeId = storeID ∧ x.needDelete = true := by
  rcases hold : getOldHotPeerStat σ region.id storeID with _ | o
  · simp only [CheckStore, hold]
    rw [updateHotPeerStat_needDelete _ _ _ _ (by simp [NewItem, hexp])]
    exact ⟨_, _, rfl, by simp [NewItem], by simp [NewItem, hexp]⟩
  · cases den
    · simp only [CheckStore, hold, Bool.false_eq_true, if_false]
      rw [updateHotPeerStat_needDelete _ _ _ _ (by simp [NewItem, hexp])]
      exact ⟨_, _, rfl, by simp [NewItem], by simp [NewItem, hexp]⟩
    · simp only [CheckStore, hold, if_true, hexp]
      rw [if_neg (by simp)]
      dsimp only
      rw [updateHotPeerStat_needDelete _ _ _ _ (by simp [NewItem, hexp])]
      exact ⟨_, _, rfl, by simp [NewItem], by simp [NewItem, hexp]⟩

/-- When every visited store is expired, the store loop appends exactly
one tombstone per store, in visiting order. -/
lemma foldl_CheckStep_pairs {kind : FlowKind} {σ : CacheState} {region : RegionInfo}
    {stats : StoresStats} {now : Int} {den : Bool} :
    ∀ (L : List Nat) (acc : List HotPeerStat × WindowHeap),
      (∀ s ∈ L, isRegionExpired kind region s = true) →
      (L.foldl (CheckStep kind σ region stats now den) acc).1.map
          (fun x => (x.storeId, x.needDelete))
        = acc.1.map (fun x => (x.storeId, x.needDelete)) ++ L.map (fun s => (s, true)) := by
  intro L
  induction L with
  | nil =>
    intro acc _
    simp
  | cons a L ih =>
    intro acc hall
    simp only [List.foldl_cons]
    obtain ⟨x, h2, hCS, hsx, hnx⟩ :=
      @CheckStore_expired_emits kind σ region stats now den a acc.2
        (hall a (List.mem_cons_self a L))
    have hstep : CheckStep kind σ region stats now den acc a = (acc.1 ++ [x], h2) := by
      unfold CheckStep
      rw [hCS]
    rw [hstep, ih (acc.1 ++ [x], h2) (fun s hs => hall s (List.mem_cons_of_mem a hs))]
    simp [hsx, hnx]

/-- A peer fold in which every peer is filtered out returns the
accumulator unchanged. -/
lemma peer_foldl_all_skip {kind : FlowKind} {region : RegionInfo} (ps : List Peer)
    (hall : ∀ p ∈ ps, kind = .read ∧ p.storeId ≠ leaderStoreId region) :
    ∀ acc : List Nat,
      ps.foldl
        (fun acc p =>
          if kind = .read ∧ p.storeId ≠ leaderStoreId region then acc
          else if p.storeId ∈ acc then acc else acc ++ [p.storeId])
        acc = acc := by
  induction ps with
  | nil => exact fun _ => rfl
  | cons a ps ih =>
    intro acc
    simp only [List.foldl_cons]
    rw [if_pos (hall a (List.mem_cons_self a ps))]
    exact ih (fun p hp => hall p (List.mem_cons_of_mem a hp)) acc

/-- C5 amended: a read-kind check of a region with no leader (all store
ids nonzero) mutates neither index and emits exactly one `needDelete`
tombstone per previously observed store of the region, in order, and
nothing else; in particular it returns the empty list if and only if no
store was previously observed for the region. -/
theorem no_leader_amended
    (σ : CacheState) (region : RegionInfo) (stats : StoresStats) (now : Int) (den : Bool)
    (hld : region.leader = none)
    (hpeers : ∀ p ∈ region.peers, p.storeId ≠ 0)
    (holds : ∀ s ∈ (σ.storesOfRegion region.id).getD [], s ≠ 0) :
    ((CheckRegionFlow .read σ region stats now den).1.map
        (fun x => (x.storeId, x.needDelete))
      = ((σ.storesOfRegion region.id).getD []).map (fun s => (s, true)))
    ∧ (CheckRegionFlow .read σ region stats now den).2.peersOfStore = σ.peersOfStore
    ∧ (CheckRegionFlow .read σ region stats now den).2.storesOfRegion = σ.storesOfRegion
    ∧ ((CheckRegionFlow .read σ region stats now den).1 = []
        ↔ (σ.storesOfRegion region.id).getD [] = []) := by
  have hl0 : leaderStoreId region = 0 := by
    simp [leaderStoreId, hld]
  have hgall : getAllStoreIDs .read σ region = (σ.storesOfRegion region.id).getD [] := by
    unfold getAllStoreIDs
    exact peer_foldl_all_skip region.peers
      (fun p hp => ⟨rfl, by rw [hl0]; exact hpeers p hp⟩) _
  have hexpall : ∀ s ∈ (σ.storesOfRegion region.id).getD [],
      isRegionExpired .read region s = true := by
    intro s hs
    have := holds s hs
    simp [isRegionExpired, hl0]
    omega
  have hmap : (CheckRegionFlow .read σ region stats now den).1.map
      (fun x => (x.storeId, x.needDelete))
      = ((σ.storesOfRegion region.id).getD []).map (fun s => (s, true)) := by
    show ((getAllStoreIDs .read σ region).foldl
        (CheckStep .read σ region stats now den) ([], σ.windows)).1.map
        (fun x => (x.storeId, x.needDelete)) = _
    rw [hgall, foldl_CheckStep_pairs _ ([], σ.windows) hexpall]
    simp
  refine ⟨hmap, rfl, rfl, ?_⟩
  constructor
  · intro hnil
    have h2 := hmap
    rw [hnil] at h2
    exact List.map_eq_nil_iff.mp h2.symm
  · intro hnil
    have hgnil : getAllStoreIDs .read σ region = [] := by rw [hgall, hnil]
    simp [CheckRegionFlow, hgnil]

/-- Witness for C5 (amended): in the concrete no-leader scenario every
emitted item is a tombstone, and a state with no previously observed
store yields the empty list. -/
theorem no_leader_amended_witness :
    ((CheckRegionFlow .read sigmaExpired regionNoPeers statsZero 10 true).1.map
        (fun x => (x.storeId, x.needDelete)) = [(2, true)])
    ∧ (CheckRegionFlow .read emptyCacheState regionNoPeers statsZero 10 true).1 = [] := by
  constructor
  · have happ := (no_leader_amended sigmaExpired regionNoPeers statsZero 10 true rfl
      (by intro p hp; simp [regionNoPeers] at hp) (by decide)).1
    simpa using happ
  · exact (no_leader_amended emptyCacheState regionNoPeers statsZero 10 true rfl
      (by intro p hp; simp [regionNoPeers] at hp)
      (by simp [emptyCacheState])).2.2.2.mpr (by simp [emptyCacheState])

/-- C6: the write-kind hot threshold is
`max(write_rate / hotPeerMaxCount, hotWriteRegionMinFlowRate)` and the
read-kind one is `max(read_rate / hotPeerMaxCount,
hotReadRegionMinFlowRate)`, with divisor 400 and floors 16 KiB/s and
128 KiB/s; a store reporting rate 0 gets exactly the MIN constant. -/
theorem hot_threshold_formula :
    (∀ (stats : StoresStats) (s : Nat),
      calcHotThreshold .write stats s
          = max ((stats s).1 / hotPeerMaxCount) hotWriteRegionMinFlowRate
        ∧ calcHotThreshold .read stats s
          = max ((stats s).2 / hotPeerMaxCount) hotReadRegionMinFlowRate)
    ∧ hotPeerMaxCount = 400
    ∧ hotWriteRegionMinFlowRate = 16 * 1024
    ∧ hotReadRegionMinFlowRate = 128 * 1024
    ∧ (∀ (stats : StoresStats) (s : Nat), (stats s).1 = 0 →
        calcHotThreshold .write stats s = hotWriteRegionMinFlowRate)
    ∧ (∀ (stats : StoresStats) (s : Nat), (stats s).2 = 0 →
        calcHotThreshold .read stats s = hotReadRegionMinFlowRate) := by
  have hw : ∀ (stats : StoresStats) (s : Nat),
      calcHotThreshold .write stats s
        = max ((stats s).1 / hotPeerMaxCount) hotWriteRegionMinFlowRate := by
    intro stats s
    unfold calcHotThreshold calculateWriteHotThresholdWithStore
    dsimp only
    split <;> omega
  have hr : ∀ (stats : StoresStats) (s : Nat),
      calcHotThreshold .read stats s
        = max ((stats s).2 / hotPeerMaxCount) hotReadRegionMinFlowRate := by
    intro stats s
    unfold calcHotThreshold calculateReadHotThresholdWithStore
    dsimp only
    split <;> omega
  refine ⟨fun stats s => ⟨hw stats s, hr stats s⟩, rfl, rfl, rfl, ?_, ?_⟩
  · intro stats s h0
    rw [hw stats s, h0]
    decide
  · intro stats s h0
    rw [hr stats s, h0]
    decide

/-- Witness for C6: a store with zero reported rates gets exactly the
floors 16384 and 131072. -/
theorem hot_threshold_formula_witness :
    calcHotThreshold .write statsZero 7 = hotWriteRegionMinFlowRate
    ∧ calcHotThreshold .read statsZero 7 = hotReadRegionMinFlowRate :=
  ⟨hot_threshold_formula.2.2.2.2.1 statsZero 7 rfl,
   hot_threshold_formula.2.2.2.2.2 statsZero 7 rfl⟩

/-- C7: with denoising on, after a non-delete item is applied through
`Update`, a second check less than `hotRegionReportMinInterval` = 3
seconds later on the still non-expired pair emits nothing for that
store; and whenever a store with a cached old stat is not skipped
(interval at least 3 seconds, or the peer expired) over a positive
interval, the emitted rates are the flows divided by the real
interval. -/
theorem denoising_suppression_and_recompute :
    (∀ (kind : FlowKind) (σ : CacheState) (region : RegionInfo) (stats : StoresStats)
        (item : HotPeerStat) (now : Int),
      item.needDelete = false →
      item.regionId = region.id →
      now - item.lastUpdateTime < hotRegionReportMinInterval →
      isRegionExpired kind region item.storeId = false →
      ∀ x ∈ (CheckRegionFlow kind (Update σ item none) region stats now true).1,
        x.storeId ≠ item.storeId)
    ∧ (∀ (kind : FlowKind) (σ : CacheState) (region : RegionInfo) (stats : StoresStats)
        (now : Int) (storeID : Nat) (o : HotPeerStat) (h : WindowHeap)
        (x : HotPeerStat) (h2 : WindowHeap),
      getOldHotPeerStat σ region.id storeID = some o →
      0 < now - o.lastUpdateTime →
      (hotRegionReportMinInterval ≤ now - o.lastUpdateTime
        ∨ isRegionExpired kind region storeID = true) →
      CheckStore kind σ region stats now true storeID h = (some x, h2) →
      x.bytesRate = getBytesFlow kind region / (now - o.lastUpdateTime).toNat
      ∧ x.keysRate = getKeysFlow kind region / (now - o.lastUpdateTime).toNat) := by
  constructor
  · intro kind σ region stats item now hnd hrid hint hexp x hx hxs
    have hold : getOldHotPeerStat (Update σ item none) region.id item.storeId = some item := by
      rw [← hrid]
      exact getOld_after_update none hnd
    obtain ⟨s, hs, h, h2, he⟩ := mem_CheckRegionFlow hx
    have hst := CheckStore_some_storeId he
    rw [hst] at hxs
    rw [hxs, CheckStore_skip h hold hint hexp] at he
    exact absurd he (by simp)
  · intro kind σ region stats now storeID o h x h2 hold hpos hnoskip hCS
    have hno : ¬(now - o.lastUpdateTime < hotRegionReportMinInterval
        ∧ isRegionExpired kind region storeID = false) := by
      rcases hnoskip with h1 | h1
      · exact fun hc => absurd h1 (not_le.mpr hc.1)
      · exact fun hc => by rw [h1] at hc; exact Bool.noConfusion hc.2
    rw [CheckStore_recompute h hold hno] at hCS
    obtain ⟨-, -, hb, hk, -⟩ := updateHotPeerStat_some_fields hCS
    rw [hb, hk]
    constructor <;> simp [NewItem, rateOver, hpos]

/-- Witness for C7: after the fresh item is applied at t = 10, a check
at t = 12 (interval 2 s) emits nothing for the region. -/
theorem denoising_suppression_and_recompute_witness :
    (CheckRegionFlow .write (Update emptyCacheState freshItem none) regionHotW statsZero 12
        true).1 = [] := by
  have happ := denoising_suppression_and_recompute.1 .write emptyCacheState regionHotW
    statsZero freshItem 12 (by decide) (by decide) (by decide) (by decide)
  decide

/-- C8: the candidate store set visited by `CheckRegionFlow` is the
union of the previously observed stores of the region and the store ids
of its current peers filtered by kind (all peers for write kind, only
the leader's store for read kind), so a store formerly hosting the
region is visited again after its peer was removed. -/
theorem candidate_store_set_union (kind : FlowKind) (σ : CacheState) (region : RegionInfo)
    (s : Nat) :
    s ∈ getAllStoreIDs kind σ region ↔
      s ∈ (σ.storesOfRegion region.id).getD []
      ∨ ∃ p, p ∈ region.peers ∧ p.storeId = s
          ∧ (kind = .write ∨ p.storeId = leaderStoreId region) :=
  mem_getAllStoreIDs kind σ region s

/-- C9: starting from the empty cache, every state reachable by
`Update` steps (with arbitrary silent evictions) satisfies the forward
mutual-consistency invariant; a non-delete `Update` inserts the pair
into both indices, and a tombstone `Update` removes it from both. -/
theorem update_forward_invariant :
    (∀ σ : CacheState, Reachable σ → ForwardInv σ)
    ∧ (∀ (σ : CacheState) (item : HotPeerStat) (evict : Option Nat),
        item.needDelete = false →
        PairIn (Update σ item evict) item.storeId item.regionId
        ∧ StoreIn (Update σ item evict) item.storeId item.regionId)
    ∧ (∀ (σ : CacheState) (item : HotPeerStat) (evict : Option Nat),
        item.needDelete = true →
        ¬ PairIn (Update σ item evict) item.storeId item.regionId
        ∧ ¬ StoreIn (Update σ item evict) item.storeId item.regionId) :=
  ⟨fun _ h => forwardInv_reachable h,
   fun _ _ _ hnd => ⟨pairIn_update_put_self hnd, storeIn_update_put_self hnd⟩,
   fun _ _ _ hnd => update_del_self_removed hnd⟩

/-- Witness for C9: the state reached by applying the fresh item to the
empty cache satisfies the forward invariant. -/
theorem update_forward_invariant_witness :
    ForwardInv (Update emptyCacheState freshItem none) :=
  update_forward_invariant.1 _
    (Reachable.step emptyCacheState freshItem none Reachable.empty)

/-- C10 counterexample: a check with a cached old stat owning window 0
adds the new bytes sample to that very window — the rolling window
reachable from the cached stat changes from `[7]` to `[629145, 7]`
during the check, before any `Update`. -/
theorem check_no_mutation_counterexample :
    (getOldHotPeerStat sigmaReg 1 1).map (fun x => x.rollingId) = some (some 0)
    ∧ sigmaReg.windows.data 0 = [7]
    ∧ (CheckRegionFlow .write sigmaReg regionHotW statsZero 110 true).2.windows.data 0
        = [629145, 7]
    ∧ ((CheckRegionFlow .write sigmaReg regionHotW statsZero 110 true).1.map
        (fun x => x.rollingId) = [some 0]) := by
  refine ⟨by decide, by decide, by decide, by decide⟩

/-- C10 amended: `CheckRegionFlow` never mutates `peersOfStore` or
`storesOfRegion` (and hence no scalar field of any cached stat); only
the rolling window shared between a cached old stat and its emitted
successor receives the current sample during the check. -/
theorem check_frame_on_indices (kind : FlowKind) (σ : CacheState) (region : RegionInfo)
    (stats : StoresStats) (now : Int) (den : Bool) :
    (CheckRegionFlow kind σ region stats now den).2.peersOfStore = σ.peersOfStore
    ∧ (CheckRegionFlow kind σ region stats now den).2.storesOfRegion = σ.storesOfRegion :=
  ⟨rfl, rfl⟩

end PD
